import Mathlib

/-!
Verification of the completor well-construction engine
(`create_wells.py`, `input_validation.py`) against its
natural-language specification.

Conventions of the embedding:
* pandas DataFrames become `List` of row structures; the DataFrame index,
  where it matters, is made explicit as a `Nat` paired with the row;
* measured depths and other real-valued columns become `ℚ` (IEEE floats
  denote rationals and compare like them, except NaN, which is modelled
  explicitly where a claim needs it);
* Python exceptions become `Except` error values carrying the data that
  the exception message interpolates;
* the iteration order of a Python `set` of strings is hash-seed dependent,
  so it is passed in as an explicit `setOrder` list, constrained in the
  theorems to enumerate exactly the distinct elements.
-/

deriving instance DecidableEq for Except

namespace Completor

/-- Row of the COMPLETION table, columns as in
`input_validation.set_format_completion` plus the ANNULUS_ZONE column that
`create_wells.select_well` documents for `df_completion`. -/
structure CompRow where
  well : String
  branch : Int
  startMD : ℚ
  endMD : ℚ
  innerID : ℚ
  outerID : ℚ
  roughness : ℚ
  annulus : String
  nValvePerJoint : ℚ
  deviceType : String
  deviceNumber : Int
  annulusZone : Int
  deriving DecidableEq

/-- Segment creation method enum, `completor.constants.SegmentCreationMethod`
(module not in the sources; the four variants are those `_method` returns). -/
inductive SegmentCreationMethod where
  | FIX
  | CELLS
  | USER
  | WELSEGS
  deriving DecidableEq

/-- Value of a Python float: a rational number or NaN.  IEEE comparisons of a
finite float with 0.0 agree with the rational order; every comparison with
NaN is false, which is all the `_method` code observes. -/
inductive FloatVal where
  | num (q : ℚ)
  | nan
  deriving DecidableEq

/-- Python `v > 0.0` on a float. -/
def FloatVal.gtZero : FloatVal → Bool
  | num q => decide (0 < q)
  | nan => false

/-- Python `v == 0.0` on a float. -/
def FloatVal.eqZero : FloatVal → Bool
  | num q => decide (q = 0)
  | nan => false

/-- Python `v < 0.0` on a float. -/
def FloatVal.ltZero : FloatVal → Bool
  | num q => decide (q < 0)
  | nan => false

/-- The SEGMENTLENGTH configuration value: a float or a string
(`case.segment_length`). -/
inductive SegmentLength where
  | flt (v : FloatVal)
  | strv (s : String)
  deriving DecidableEq

/-- Error raised by `_method` (a `ValueError` whose message interpolates the
offending `segment_length` value). -/
inductive ConfigError where
  | unrecognizedMethod (value : SegmentLength)
  deriving DecidableEq

/-- Bool test that `needle` is a prefix of `hay`, character by character. -/
def charsStart : List Char → List Char → Bool
  | _, [] => true
  | [], _ :: _ => false
  | a :: as, b :: bs => a = b && charsStart as bs

/-- Bool test for Python `needle in hay` on the underlying characters. -/
def charsContain : List Char → List Char → Bool
  | [], needle => needle.isEmpty
  | a :: t, needle => charsStart (a :: t) needle || charsContain t needle

/-- Python `needle in hay` for strings. -/
def strContains (hay needle : String) : Bool :=
  charsContain hay.toList needle.toList

/-- Python `s.lower()`, lowering each character (the keywords compared against
are ASCII, where `str.lower` and `Char.toLower` agree). -/
def lowerStr (s : String) : String :=
  ⟨s.data.map Char.toLower⟩

/-- Model of `CreateWells._method` (`create_wells.py` lines 130-172): resolve
the SEGMENTLENGTH configuration value to a segment creation method. -/
def methodOf (segmentLength : SegmentLength) : Except ConfigError SegmentCreationMethod :=
  match segmentLength with
  | .flt v =>
    if v.gtZero then .ok .FIX
    else if v.eqZero then .ok .CELLS
    else if v.ltZero then .ok .USER
    else .error (.unrecognizedMethod segmentLength)
  | .strv s =>
    if strContains (lowerStr s) "welsegs" || strContains (lowerStr s) "infill" then .ok .WELSEGS
    else if strContains (lowerStr s) "cell" then .ok .CELLS
    else if strContains (lowerStr s) "user" then .ok .USER
    else .error (.unrecognizedMethod segmentLength)

/-- Device types that `_active_wells` treats as active devices
(`create_wells.py` line 118). -/
def activeDeviceTypes : List String := ["AICD", "AICV", "DAR", "ICD", "VALVE", "ICV"]

/-- Rows of the completion table belonging to one well
(`completion_table[completion_table["WELL"] == well_name]`). -/
def wellRows (table : List CompRow) (w : String) : List CompRow :=
  table.filter (fun r => r.well = w)

/-- Model of `gp_check` (`create_wells.py` line 117): true iff no interval of
the well has annulus OA. -/
def gpCheck (table : List CompRow) (w : String) : Bool :=
  !(wellRows table w).any (fun r => r.annulus = "OA")

/-- Model of `perf_check` (`create_wells.py` line 118): true iff no interval
of the well has an active device type. -/
def perfCheck (table : List CompRow) (w : String) : Bool :=
  !(wellRows table w).any (fun r => activeDeviceTypes.contains r.deviceType)

/-- Exclusion condition of `_active_wells` (`create_wells.py` line 119). -/
def wellExcluded (table : List CompRow) (gpPerfDevicelayer : Bool) (w : String) : Bool :=
  gpCheck table w && perfCheck table w && !gpPerfDevicelayer

/-- Model of `CreateWells._active_wells` (`create_wells.py` lines 93-128).
The Python code builds `list(set(completion_table["WELL"]))` and removes
excluded wells while iterating a copy of that list; the hash-seed-dependent
iteration order of the `set` is made explicit as `setOrder`, which theorems
constrain to enumerate exactly the distinct well names.  The mid-loop early
return on an empty list returns the same empty list the loop would. -/
def activeWells (table : List CompRow) (gpPerfDevicelayer : Bool)
    (setOrder : List String) : List String :=
  setOrder.filter (fun w => !wellExcluded table gpPerfDevicelayer w)

/-- Valid enumeration orders of `set(completion_table["WELL"])`: no
duplicates, and exactly the well names occurring in the table. -/
def SetEnum (table : List CompRow) (setOrder : List String) : Prop :=
  setOrder.Nodup ∧ ∀ w, w ∈ setOrder ↔ w ∈ table.map CompRow.well

/-- Deduplication keeping the first occurrence, in encounter order: the
order the C4 claim's words "original encounter order with duplicates
removed" describe (and the order `pandas.Series.unique` produces). -/
def uniqueKeepFirst {α : Type} [DecidableEq α] : List α → List α
  | [] => []
  | a :: as => a :: (uniqueKeepFirst as).filter (fun x => decide (x ≠ a))

/-- Single-interval well whose interval has annulus PA (packer) and device
type PERF. -/
def packerOnlyRow : CompRow :=
  { well := "W1", branch := 1, startMD := 0, endMD := 0, innerID := 0, outerID := 0,
    roughness := 0, annulus := "PA", nValvePerJoint := 0, deviceType := "PERF",
    deviceNumber := 0, annulusZone := 0 }

/-- Completion row of well A, open annulus, perforated. -/
def rowWellA : CompRow :=
  { well := "A", branch := 1, startMD := 0, endMD := 1, innerID := 0, outerID := 0,
    roughness := 0, annulus := "OA", nValvePerJoint := 0, deviceType := "PERF",
    deviceNumber := 0, annulusZone := 0 }

/-- Completion row of well B, open annulus, perforated. -/
def rowWellB : CompRow :=
  { rowWellA with well := "B" }

/-- Row of the COMPSEGS-derived table returned by `schedule.get_compsegs`,
columns as documented for `df_reservoir` in `select_well`. -/
structure CompsegRow where
  i : Int
  j : Int
  k : Int
  startMD : ℚ
  endMD : ℚ
  compsegsDirection : String
  perfDepth : ℚ
  deriving DecidableEq

/-- Row of the COMPDAT-derived table returned by `schedule.get_compdat`,
columns as documented for `df_reservoir` in `select_well`. -/
structure CompdatRow where
  well : String
  i : Int
  j : Int
  k : Int
  k2 : Int
  status : String
  satnum : Int
  cf : ℚ
  diam : ℚ
  kh : ℚ
  skin : ℚ
  dfact : ℚ
  compdatDirection : String
  ro : ℚ
  deriving DecidableEq

/-- Row of `df_reservoir`: the merge of a COMPSEGS row and a COMPDAT row on
equal (I, J, K), with the WELL column dropped (`create_wells.py` line 368). -/
structure ResRow where
  i : Int
  j : Int
  k : Int
  startMD : ℚ
  endMD : ℚ
  compsegsDirection : String
  perfDepth : ℚ
  k2 : Int
  status : String
  satnum : Int
  cf : ℚ
  diam : ℚ
  kh : ℚ
  skin : ℚ
  dfact : ℚ
  compdatDirection : String
  ro : ℚ
  deriving DecidableEq

/-- Join condition of `pd.merge(..., on=["I", "J", "K"])`. -/
def matchIJK (l : CompsegRow) (r : CompdatRow) : Bool :=
  decide (l.i = r.i) && decide (l.j = r.j) && decide (l.k = r.k)

/-- Combination of a matching row pair into a `df_reservoir` row. -/
def mkResRow (l : CompsegRow) (r : CompdatRow) : ResRow :=
  { i := l.i, j := l.j, k := l.k, startMD := l.startMD, endMD := l.endMD,
    compsegsDirection := l.compsegsDirection, perfDepth := l.perfDepth,
    k2 := r.k2, status := r.status, satnum := r.satnum, cf := r.cf, diam := r.diam,
    kh := r.kh, skin := r.skin, dfact := r.dfact,
    compdatDirection := r.compdatDirection, ro := r.ro }

/-- Model of `pd.merge(df_compsegs, df_compdat, how="inner", on=["I","J","K"])`
(`create_wells.py` line 365) followed by dropping the WELL column: left rows
in order, each paired with its matching right rows in order; unmatched rows
disappear. -/
def mergeInner (ls : List CompsegRow) (rs : List CompdatRow) : List ResRow :=
  ls.flatMap (fun l => (rs.filter (fun r => matchIJK l r)).map (mkResRow l))

/-- Model of pandas `drop_duplicates(subset=key, keep="last")`: a row
survives iff no later row has the same key; survivors keep their relative
order. -/
def dropDupKeepLast {α κ : Type} [DecidableEq κ] (key : α → κ) : List α → List α
  | [] => []
  | a :: rest =>
    if rest.any (fun b => decide (key b = key a)) then dropDupKeepLast key rest
    else a :: dropDupKeepLast key rest

/-- Model of the `df_reservoir` construction in `CreateWells.select_well`
(`create_wells.py` lines 365-372): inner merge on (I, J, K), WELL column
dropped, `drop_duplicates(subset="STARTMD", keep="last")`, and
`reset_index`, which re-labels the rows 0, 1, 2, .... -/
def selectReservoir (ls : List CompsegRow) (rs : List CompdatRow) : List (Nat × ResRow) :=
  (dropDupKeepLast ResRow.startMD (mergeInner ls rs)).enum

/-- Written from the C3 claim's words, for comparison with `selectReservoir`:
the same join, but with the duplicate drop keyed on the grid-index tuple
(I, J, K) instead of STARTMD. -/
def selectReservoirClaimed (ls : List CompsegRow) (rs : List CompdatRow) : List (Nat × ResRow) :=
  (dropDupKeepLast (fun r => (r.i, r.j, r.k)) (mergeInner ls rs)).enum

/-- Grid cell (1,1,1), depth interval 100-200. -/
def csegCellOne : CompsegRow :=
  { i := 1, j := 1, k := 1, startMD := 100, endMD := 200,
    compsegsDirection := "1*", perfDepth := 150 }

/-- Grid cell (2,2,2), depth interval also starting at 100. -/
def csegCellTwo : CompsegRow :=
  { i := 2, j := 2, k := 2, startMD := 100, endMD := 300,
    compsegsDirection := "1*", perfDepth := 200 }

/-- COMPDAT row for grid cell (1,1,1). -/
def cdatCellOne : CompdatRow :=
  { well := "A", i := 1, j := 1, k := 1, k2 := 1, status := "OPEN", satnum := 0,
    cf := 1, diam := 1, kh := 1, skin := 0, dfact := 0,
    compdatDirection := "Z", ro := 1 }

/-- COMPDAT row for grid cell (2,2,2). -/
def cdatCellTwo : CompdatRow :=
  { cdatCellOne with i := 2, j := 2, k := 2, k2 := 2 }

/-- Error raised by `select_well` when invoked without a well context: the
spec's MissingWellError, `ValueError("No well name given")`
(`create_wells.py` lines 358-359). -/
inductive SelectError where
  | missingWell
  deriving DecidableEq

/-- Model of `CreateWells.select_well` (`create_wells.py` lines 186-372):
check the well context, fetch this well and lateral's tables from the
collaborators (`case.get_completion`, `schedule.get_welsegs`,
`schedule.get_compsegs`, `schedule.get_compdat`, passed as functions; the
welsegs data is opaque to this function, type `W`), and build
`df_reservoir`. -/
def selectWell {W : Type} (wellName : Option String) (lateral : Int)
    (getCompletion : String → Int → List CompRow)
    (getWelsegs : String → Int → W)
    (getCompsegs : String → Int → List CompsegRow)
    (getCompdat : String → List CompdatRow) :
    Except SelectError (List CompRow × W × List (Nat × ResRow)) :=
  match wellName with
  | none => .error .missingWell
  | some w =>
    .ok (getCompletion w lateral, getWelsegs w lateral,
      selectReservoir (getCompsegs w lateral) (getCompdat w))

/-- Model of `input_validation.set_default_packer_section` (lines 11-34): six
successive column-wise `np.where` assignments on the completion table, each
conditioned on `ANNULUS == "PA"`, a column none of the assignments
modifies. -/
def setDefaultPackerSection (df : List CompRow) : List CompRow :=
  let df1 := df.map (fun r => { r with innerID := if r.annulus = "PA" then 0 else r.innerID })
  let df2 := df1.map (fun r => { r with outerID := if r.annulus = "PA" then 0 else r.outerID })
  let df3 := df2.map (fun r => { r with roughness := if r.annulus = "PA" then 0 else r.roughness })
  let df4 := df3.map (fun r =>
    { r with nValvePerJoint := if r.annulus = "PA" then 0 else r.nValvePerJoint })
  let df5 := df4.map (fun r =>
    { r with deviceType := if r.annulus = "PA" then "PERF" else r.deviceType })
  df5.map (fun r => { r with deviceNumber := if r.annulus = "PA" then 0 else r.deviceNumber })

/-- Valid device types (`input_validation.py` line 176). -/
def validDeviceTypes : List String := ["PERF", "AICD", "ICD", "VALVE", "DAR", "AICV", "ICV"]

/-- Valid annulus contents (`input_validation.py` line 181). -/
def validAnnulus : List String := ["GP", "OA", "PA"]

/-- Errors raised by `_check_for_errors` (`input_validation.py` lines
138-182), carrying the data the `abort` message interpolates; the gap and
overlap errors name the offending depth range, the length errors do not. -/
inductive CompletionError where
  | packerWithLength
  | nonPackerZeroLength
  | incompleteRange (fromDepth toDepth : ℚ)
  | overlappingRange (fromDepth toDepth : ℚ)
  | invalidDeviceType (deviceType : String)
  | invalidAnnulus (annulus : String)
  deriving DecidableEq

/-- Domain checks at the end of `_check_for_errors` (lines 176-182). -/
def checkDomains (r : CompRow) : Except CompletionError Unit :=
  if !validDeviceTypes.contains r.deviceType then .error (.invalidDeviceType r.deviceType)
  else if !validAnnulus.contains r.annulus then .error (.invalidAnnulus r.annulus)
  else .ok ()

/-- Gap and overlap checks of `_check_for_errors` (`input_validation.py`
lines 164-175), performed only when the row has a predecessor (`idx > 0`):
a gap (previous end below current start) or an overlap (current start below
previous end) raises an error naming the two offending depths. -/
def checkGapOverlap : Option CompRow → CompRow → Except CompletionError Unit
  | some p, r =>
    if p.endMD < r.startMD then .error (.incompleteRange p.endMD r.startMD)
    else if r.startMD < p.endMD then .error (.overlappingRange p.endMD r.startMD)
    else .ok ()
  | none, _ => .ok ()

/-- Model of `_check_for_errors` (`input_validation.py` lines 138-182) at one
row position: `prev` is the row at the preceding position when there is one.
The checks run in source order and the first failing check raises. -/
def checkForErrors (prev : Option CompRow) (r : CompRow) : Except CompletionError Unit :=
  if r.annulus = "PA" ∧ r.startMD ≠ r.endMD then .error .packerWithLength
  else if r.annulus ≠ "PA" ∧ r.deviceType ≠ "ICV" ∧ r.startMD = r.endMD then
    .error .nonPackerZeroLength
  else (checkGapOverlap prev r).bind (fun _ => checkDomains r)

/-- Model of the inner loop of `assess_completion` (`input_validation.py`
lines 127-135) over one (well, branch) group: check every row in order
against its predecessor, stopping at the first error. -/
def checkGroup (prev : Option CompRow) : List CompRow → Except CompletionError Unit
  | [] => .ok ()
  | r :: rest =>
    match checkForErrors prev r with
    | .error e => .error e
    | .ok _ => checkGroup (some r) rest

/-- Row conditions of the amended C5 claim: packer intervals have zero
length, non-packer intervals of device type other than ICV have nonzero
length, and the device type and annulus are in their valid domains. -/
def RowOk (r : CompRow) : Prop :=
  (r.annulus = "PA" → r.startMD = r.endMD) ∧
  (r.annulus ≠ "PA" → r.deviceType ≠ "ICV" → r.startMD ≠ r.endMD) ∧
  r.deviceType ∈ validDeviceTypes ∧ r.annulus ∈ validAnnulus

/-- Contiguity of one interval after another: the later interval starts at
the depth where the earlier one ends. -/
def Contiguous (p r : CompRow) : Prop := r.startMD = p.endMD

/-- Gravel-pack interval with ICV device and zero length. -/
def icvZeroLengthRow : CompRow :=
  { well := "W", branch := 1, startMD := 100, endMD := 100, innerID := 2, outerID := 3,
    roughness := 0, annulus := "GP", nValvePerJoint := 1, deviceType := "ICV",
    deviceNumber := 1, annulusZone := 0 }

/-- Gravel-pack perforated interval whose depths run backwards. -/
def reversedRow : CompRow :=
  { icvZeroLengthRow with startMD := 100, endMD := 50, deviceType := "PERF" }

/-- Schedule collaborator of the engine: per-well and per-lateral tables
(`schedule.get_compsegs`, `schedule.get_compdat`). -/
structure Schedule where
  getCompsegs : String → Int → List CompsegRow
  getCompdat : String → List CompdatRow

/-- Full input of one engine run: the case configuration (completion table,
gravel-pack-perforated flag, segment-length value), the set-iteration order
used by `_active_wells`, and the schedule collaborator. -/
structure EngineInput where
  completionTable : List CompRow
  gpPerfDevicelayer : Bool
  segmentLength : SegmentLength
  setOrder : List String
  schedule : Schedule

/-- Model of `CreateWells._active_laterals` (`create_wells.py` lines
174-184): the unique BRANCH values of the well's completion rows, in
encounter order (`pandas.Series.unique` keeps first occurrences). -/
def activeLaterals (table : List CompRow) (w : String) : List Int :=
  uniqueKeepFirst ((wellRows table w).map CompRow.branch)

/-- Modelled from the spec: `case.get_completion` (module `read_casefile` is
not in the sources); per §4.3 it filters the completion table to the rows of
the given well and lateral. -/
def getCompletionOf (table : List CompRow) (w : String) (lateral : Int) : List CompRow :=
  (wellRows table w).filter (fun r => decide (r.branch = lateral))

/-- Tubing segment of the engine output: id, depth range, annulus zone. -/
structure TubingSegment where
  segmentId : Nat
  startMD : ℚ
  endMD : ℚ
  annulusZone : Int
  deriving DecidableEq

/-- Modelled from the spec: the first pass of AnnulusZoneAssigner
(`define_annulus_zone` is not in the sources); per §4.5, walk the completion
intervals in depth order and start a new zone id whenever the annulus
isolation changes or a packer interval is crossed. -/
def assignZones : Int → Option String → List CompRow → List CompRow
  | _, _, [] => []
  | zone, prevAnn, r :: rest =>
    let newZone :=
      match prevAnn with
      | none => zone
      | some a => if a = r.annulus ∧ a ≠ "PA" ∧ r.annulus ≠ "PA" then zone else zone + 1
    { r with annulusZone := newZone } :: assignZones newZone (some r.annulus) rest

/-- Modelled from the spec: the zone id of the completion interval containing
a depth (§4.5 second pass, `correct_annulus_zone`, not in the sources), zero
when no interval contains it. -/
def zoneOfDepth (completion : List CompRow) (d : ℚ) : Int :=
  match completion.find? (fun r => decide (r.startMD ≤ d) && decide (d ≤ r.endMD)) with
  | some r => r.annulusZone
  | none => 0

/-- Distance from a depth to a segment's depth range: zero inside the
range. -/
def segDistance (d : ℚ) (s : TubingSegment) : ℚ :=
  if d < s.startMD then s.startMD - d
  else if s.endMD < d then d - s.endMD
  else 0

/-- Modelled from the spec: CellSegmentConnector's segment lookup
(`connect_cells_to_segments` is not in the sources); per §4.8, the segment
containing the depth, else the nearest by absolute distance, keeping the
shallower (earlier) segment on a tie. -/
def nearestSegment (d : ℚ) : List TubingSegment → Option TubingSegment
  | [] => none
  | s :: rest =>
    match nearestSegment d rest with
    | none => some s
    | some t => if segDistance d t < segDistance d s then some t else some s

/-- Modelled from the spec: TubingSegmentBuilder's CELLS strategy
(`create_tubing_segments` is not in the sources); per §4.6, one tubing
segment per grid-connection depth range, ids assigned densely from 1 in row
order, zone ids derived from the completion interval containing the segment
midpoint. -/
def buildSegments (completion : List CompRow) (res : List (Nat × ResRow)) :
    List TubingSegment :=
  res.enum.map (fun pr =>
    { segmentId := pr.1 + 1, startMD := pr.2.2.startMD, endMD := pr.2.2.endMD,
      annulusZone := zoneOfDepth completion ((pr.2.2.startMD + pr.2.2.endMD) / 2) })

/-- One lateral's processed output: the selected tables, the tubing segments
(with ids and zone ids) and the cell-to-segment mapping. -/
structure LateralResult where
  lateral : Int
  completion : List CompRow
  reservoir : List (Nat × ResRow)
  segments : List TubingSegment
  cellMapping : List (Nat × Option Nat)
  deriving DecidableEq

/-- Per-lateral pipeline of `CreateWells.update` (`create_wells.py` lines
69-92): the `select_well` stage from the sources followed by the
spec-modelled downstream stages (zone assignment, segment construction,
cell-to-segment connection). -/
def processLateral (inp : EngineInput) (w : String) (lateral : Int) :
    Except SelectError LateralResult :=
  match selectWell (some w) lateral (getCompletionOf inp.completionTable)
      (fun _ _ => ()) inp.schedule.getCompsegs inp.schedule.getCompdat with
  | .error e => .error e
  | .ok (completion, _, res) =>
    let zoned := assignZones 0 none completion
    let segments := buildSegments zoned res
    let mapping := res.map (fun pr =>
      (pr.1, (nearestSegment pr.2.startMD segments).map TubingSegment.segmentId))
    .ok { lateral := lateral, completion := zoned, reservoir := res,
          segments := segments, cellMapping := mapping }

/-- Model of one full engine run (`CreateWells.__init__` plus `update` for
every active well, `create_wells.py` lines 50-92): resolve the segmentation
method, filter the active wells, and process every lateral of every active
well in order. -/
def runEngine (inp : EngineInput) :
    Except ConfigError (List (String × List (Except SelectError LateralResult))) :=
  match methodOf inp.segmentLength with
  | .error e => .error e
  | .ok _ =>
    .ok ((activeWells inp.completionTable inp.gpPerfDevicelayer inp.setOrder).map (fun w =>
      (w, (activeLaterals inp.completionTable w).map (fun l => processLateral inp w l))))

/-- Concrete engine input used to witness determinism. -/
def sampleEngineInput : EngineInput :=
  { completionTable := [rowWellA], gpPerfDevicelayer := true,
    segmentLength := .flt (.num 12), setOrder := ["A"],
    schedule :=
      { getCompsegs := fun _ _ => [csegCellOne],
        getCompdat := fun _ => [cdatCellOne] } }

end Completor

namespace Completor

/-- Membership in the `_active_wells` result, for any valid set enumeration:
exactly the wells of the table that are not excluded. -/
theorem mem_activeWells_iff (table : List CompRow) (flag : Bool)
    (setOrder : List String) (hs : SetEnum table setOrder) (w : String) :
    w ∈ activeWells table flag setOrder ↔
      w ∈ table.map CompRow.well ∧ wellExcluded table flag w = false := by
  unfold activeWells
  rw [List.mem_filter, ← hs.2 w]
  simp [Bool.not_eq_true']

/-- C2: for every numeric (non-NaN float, i.e. rational) segment-length value,
`_method` returns FIX when the value is strictly positive, CELLS when it is
zero and USER when it is strictly negative, and never takes the error
branch. -/
theorem methodOf_numeric_trichotomy (q : ℚ) :
    methodOf (.flt (.num q)) =
      .ok (if 0 < q then SegmentCreationMethod.FIX
           else if q = 0 then SegmentCreationMethod.CELLS
           else SegmentCreationMethod.USER) := by
  rcases lt_trichotomy 0 q with h | h | h
  · simp [methodOf, FloatVal.gtZero, h]
  · simp [methodOf, FloatVal.gtZero, FloatVal.eqZero, h.symm]
  · simp [methodOf, FloatVal.gtZero, FloatVal.eqZero, FloatVal.ltZero,
      not_lt_of_gt h, ne_of_lt h, h]

/-- C10: the numeric branch of `_method` succeeds exactly on non-NaN floats;
its error branch is reachable only for NaN, which falsifies all three sign
comparisons. -/
theorem methodOf_numeric_ok_iff_not_nan (v : FloatVal) :
    (∃ m, methodOf (.flt v) = .ok m) ↔ v ≠ FloatVal.nan := by
  cases v with
  | num q =>
    simp only [ne_eq, reduceCtorEq, not_false_iff, iff_true]
    exact ⟨_, methodOf_numeric_trichotomy q⟩
  | nan =>
    simp [methodOf, FloatVal.gtZero, FloatVal.eqZero, FloatVal.ltZero]

/-- C6: for every string segment-length value, `_method` returns WELSEGS when
the lowercased string contains "welsegs" or "infill", otherwise CELLS when it
contains "cell", otherwise USER when it contains "user", and otherwise fails
with a configuration error carrying the offending value. -/
theorem methodOf_string_cases (s : String) :
    (strContains (lowerStr s) "welsegs" = true ∨ strContains (lowerStr s) "infill" = true →
      methodOf (.strv s) = .ok .WELSEGS) ∧
    (strContains (lowerStr s) "welsegs" = false → strContains (lowerStr s) "infill" = false →
      strContains (lowerStr s) "cell" = true → methodOf (.strv s) = .ok .CELLS) ∧
    (strContains (lowerStr s) "welsegs" = false → strContains (lowerStr s) "infill" = false →
      strContains (lowerStr s) "cell" = false → strContains (lowerStr s) "user" = true →
      methodOf (.strv s) = .ok .USER) ∧
    (strContains (lowerStr s) "welsegs" = false → strContains (lowerStr s) "infill" = false →
      strContains (lowerStr s) "cell" = false → strContains (lowerStr s) "user" = false →
      methodOf (.strv s) = .error (.unrecognizedMethod (.strv s))) := by
  refine ⟨fun h => ?_, fun h1 h2 h3 => ?_, fun h1 h2 h3 h4 => ?_, fun h1 h2 h3 h4 => ?_⟩
  · rcases h with h | h <;> simp [methodOf, h]
  · simp [methodOf, h1, h2, h3]
  · simp [methodOf, h1, h2, h3, h4]
  · simp [methodOf, h1, h2, h3, h4]

/-- Witness for the C6 theorem at concrete strings: "Cells" resolves to
CELLS and "fixed" is rejected with an error carrying the value "fixed". -/
theorem methodOf_string_cases_witness :
    methodOf (.strv "Cells") = .ok SegmentCreationMethod.CELLS ∧
    methodOf (.strv "fixed") = .error (.unrecognizedMethod (.strv "fixed")) :=
  ⟨(methodOf_string_cases "Cells").2.1 (by decide) (by decide) (by decide),
   (methodOf_string_cases "fixed").2.2.2 (by decide) (by decide) (by decide) (by decide)⟩

/-- C1 counterexample: with the gravel-pack-perforated flag false, well `W1`,
whose only interval has annulus `PA` (not gravel-pack `GP`), is excluded by
`_active_wells`; hence "excluded implies every interval has annulus
gravel-pack" fails on the code. -/
theorem activeWells_excludes_well_without_gravel_pack :
    SetEnum [packerOnlyRow] ["W1"] ∧
    activeWells [packerOnlyRow] false ["W1"] = [] ∧
    ¬ ∀ r ∈ wellRows [packerOnlyRow] "W1", r.annulus = "GP" :=
  ⟨⟨by decide, fun w => by simp [packerOnlyRow]⟩, by decide, by decide⟩

/-- C1 (amended): under a valid set enumeration, a well of the table is
excluded by `_active_wells` iff no interval of the well has annulus OA (open
annulus), no interval has an active device type, and the
gravel-pack-perforated flag is false; the converse holds for included
wells. -/
theorem activeWells_excluded_characterization (table : List CompRow) (flag : Bool)
    (setOrder : List String) (hs : SetEnum table setOrder) (w : String)
    (hw : w ∈ table.map CompRow.well) :
    w ∉ activeWells table flag setOrder ↔
      ((∀ r ∈ wellRows table w, r.annulus ≠ "OA") ∧
        (∀ r ∈ wellRows table w, ¬ r.deviceType ∈ activeDeviceTypes) ∧ flag = false) := by
  rw [mem_activeWells_iff table flag setOrder hs w]
  simp only [hw, true_and, Bool.not_eq_false]
  unfold wellExcluded gpCheck perfCheck
  simp [List.any_eq_true, Bool.not_eq_true', and_assoc]

/-- Witness for the C1 (amended) theorem on the concrete one-row table. -/
theorem activeWells_excluded_characterization_witness :
    "W1" ∉ activeWells [packerOnlyRow] false ["W1"] ↔
      ((∀ r ∈ wellRows [packerOnlyRow] "W1", r.annulus ≠ "OA") ∧
        (∀ r ∈ wellRows [packerOnlyRow] "W1", ¬ r.deviceType ∈ activeDeviceTypes) ∧
        false = false) :=
  activeWells_excluded_characterization [packerOnlyRow] false ["W1"]
    ⟨by decide, fun w => by simp [packerOnlyRow]⟩ "W1" (by simp [packerOnlyRow])

/-- C4 counterexample: the table lists wells in encounter order A, B; the
enumeration ["B", "A"] is a valid iteration order of `set(...)` (Python
string hashing is seed dependent and realizes both orders), and on it
`_active_wells` returns ["B", "A"], not the encounter-order deduplication
["A", "B"]. -/
theorem activeWells_not_encounter_order :
    SetEnum [rowWellA, rowWellB] ["B", "A"] ∧
    activeWells [rowWellA, rowWellB] true ["B", "A"] ≠
      uniqueKeepFirst ([rowWellA, rowWellB].map CompRow.well) :=
  ⟨⟨by decide, fun w => by simp [rowWellA, rowWellB, or_comm]⟩, by decide⟩

/-- C4 (amended): under a valid set enumeration, the output of
`_active_wells` has no duplicate names and contains exactly the wells of the
table that are not excluded, but in the set's iteration order, which need not
be the original encounter order. -/
theorem activeWells_nodup_and_membership (table : List CompRow) (flag : Bool)
    (setOrder : List String) (hs : SetEnum table setOrder) :
    (activeWells table flag setOrder).Nodup ∧
      ∀ w, w ∈ activeWells table flag setOrder ↔
        w ∈ table.map CompRow.well ∧ wellExcluded table flag w = false :=
  ⟨hs.1.filter _, fun w => mem_activeWells_iff table flag setOrder hs w⟩

/-- Rows kept by a keep-last duplicate drop form a subsequence of the
input. -/
theorem dropDupKeepLast_sublist {α κ : Type} [DecidableEq κ] (key : α → κ)
    (l : List α) : (dropDupKeepLast key l).Sublist l := by
  induction l with
  | nil => simp [dropDupKeepLast]
  | cons a rest ih =>
    unfold dropDupKeepLast
    split
    · exact ih.cons a
    · exact ih.cons₂ a

/-- A keep-last duplicate drop retains, for each key value, exactly the last
input row carrying it. -/
theorem dropDupKeepLast_filter_key {α κ : Type} [DecidableEq κ] (key : α → κ)
    (l : List α) (x : κ) :
    (dropDupKeepLast key l).filter (fun a => decide (key a = x)) =
      ((l.filter (fun a => decide (key a = x))).getLast?).toList := by
  induction l with
  | nil => simp [dropDupKeepLast]
  | cons a rest ih =>
    unfold dropDupKeepLast
    by_cases hx : key a = x
    · by_cases hdup : rest.any (fun b => decide (key b = key a)) = true
      · rw [if_pos hdup]
        obtain ⟨b, hb, hkb⟩ : ∃ b ∈ rest, key b = key a := by simpa using hdup
        have hne : rest.filter (fun c => decide (key c = x)) ≠ [] := by
          intro hemp
          have : b ∈ rest.filter (fun c => decide (key c = x)) := by
            rw [List.mem_filter]
            exact ⟨hb, by simp [hkb, hx]⟩
          simp [hemp] at this
        rw [ih, List.filter_cons, if_pos (by simp [hx])]
        obtain ⟨c, t, ht⟩ := List.exists_cons_of_ne_nil hne
        rw [ht, List.getLast?_cons_cons]
      · rw [if_neg hdup]
        have hall : ∀ c ∈ rest, ¬ key c = key a := by
          intro c hc hk
          exact hdup (List.any_eq_true.mpr ⟨c, hc, by simp [hk]⟩)
        have hemp : rest.filter (fun c => decide (key c = x)) = [] := by
          rw [List.filter_eq_nil_iff]
          intro c hc
          simp only [decide_eq_true_eq]
          intro hcx
          exact hall c hc (hcx.trans hx.symm)
        rw [List.filter_cons, if_pos (by simp [hx]), ih, hemp,
          List.filter_cons, if_pos (by simp [hx]), hemp]
        simp
    · by_cases hdup : rest.any (fun b => decide (key b = key a)) = true
      · rw [if_pos hdup, ih, List.filter_cons, if_neg (by simp [hx])]
      · rw [if_neg hdup, List.filter_cons, if_neg (by simp [hx]), ih,
          List.filter_cons, if_neg (by simp [hx])]

/-- C3 counterexample: two grid cells with distinct (I, J, K) tuples but
equal STARTMD; the code's duplicate drop (keyed on STARTMD) keeps only one
joined row, while the claimed duplicate drop (keyed on the grid tuple) keeps
both, so the two disagree. -/
theorem selectReservoir_ne_claimed :
    selectReservoir [csegCellOne, csegCellTwo] [cdatCellOne, cdatCellTwo] ≠
      selectReservoirClaimed [csegCellOne, csegCellTwo] [cdatCellOne, cdatCellTwo] := by
  decide

/-- C3 (amended): `select_well` joins compsegs and compdat with an inner join
on (I, J, K), then drops rows with a duplicate STARTMD value (not a duplicate
grid-index tuple) keeping the last occurrence, then re-indexes densely from
zero: the output indices are 0, 1, 2, ..., the output rows form a
subsequence of the join result, and for every STARTMD value the output
retains exactly the last joined row carrying it. -/
theorem selectReservoir_characterization (ls : List CompsegRow) (rs : List CompdatRow) :
    ((selectReservoir ls rs).map Prod.fst = List.range (selectReservoir ls rs).length) ∧
      ((selectReservoir ls rs).map Prod.snd).Sublist (mergeInner ls rs) ∧
      ∀ x : ℚ,
        ((selectReservoir ls rs).map Prod.snd).filter (fun r => decide (r.startMD = x)) =
          (((mergeInner ls rs).filter (fun r => decide (r.startMD = x))).getLast?).toList := by
  refine ⟨?_, ?_, fun x => ?_⟩
  · unfold selectReservoir
    rw [List.enum_map_fst, List.enum_length]
  · unfold selectReservoir
    rw [List.enum_map_snd]
    exact dropDupKeepLast_sublist _ _
  · unfold selectReservoir
    rw [List.enum_map_snd]
    exact dropDupKeepLast_filter_key ResRow.startMD (mergeInner ls rs) x

/-- C8: `select_well` fails with the missing-well error exactly when the well
name is unset; with a well name set it never returns that error. -/
theorem selectWell_missing_iff {W : Type} (wellName : Option String) (lateral : Int)
    (getCompletion : String → Int → List CompRow)
    (getWelsegs : String → Int → W)
    (getCompsegs : String → Int → List CompsegRow)
    (getCompdat : String → List CompdatRow) :
    (selectWell wellName lateral getCompletion getWelsegs getCompsegs getCompdat =
        .error .missingWell) ↔ wellName = none := by
  cases wellName <;> simp [selectWell]

/-- Witness for the C4 (amended) theorem on the concrete two-row table. -/
theorem activeWells_nodup_and_membership_witness :
    (activeWells [rowWellA, rowWellB] true ["B", "A"]).Nodup ∧
      ∀ w, w ∈ activeWells [rowWellA, rowWellB] true ["B", "A"] ↔
        w ∈ [rowWellA, rowWellB].map CompRow.well ∧
          wellExcluded [rowWellA, rowWellB] true w = false :=
  activeWells_nodup_and_membership [rowWellA, rowWellB] true ["B", "A"]
    ⟨by decide, fun w => by simp [rowWellA, rowWellB, or_comm]⟩

/-- C9: `set_default_packer_section` maps each row independently; a row whose
ANNULUS is not "PA" is returned completely unchanged, and a row with ANNULUS
"PA" has exactly the columns INNER_ID, OUTER_ID, ROUGHNESS, NVALVEPERJOINT,
DEVICETYPE, DEVICENUMBER set to 0.0, 0.0, 0.0, 0.0, "PERF", 0, with every
other column of the row untouched. -/
theorem setDefaultPackerSection_frame (df : List CompRow) :
    setDefaultPackerSection df = df.map (fun r =>
      if r.annulus = "PA" then
        { r with
          innerID := 0
          outerID := 0
          roughness := 0
          nValvePerJoint := 0
          deviceType := "PERF"
          deviceNumber := 0 }
      else r) := by
  unfold setDefaultPackerSection
  simp only [List.map_map]
  apply List.map_congr_left
  intro r _
  by_cases h : r.annulus = "PA" <;> simp [Function.comp, h]

/-- Sequencing of two checks succeeds iff both do. -/
theorem bindOk_iff {e : Type} (a : Except e Unit) (f : Unit → Except e Unit) :
    a.bind f = .ok () ↔ (a = .ok () ∧ f () = .ok ()) := by
  cases a with
  | error x => simp [Except.bind]
  | ok u => cases u; simp [Except.bind]

/-- The gap and overlap checks succeed iff the row is contiguous with its
predecessor, when it has one. -/
theorem checkGapOverlap_ok_iff (prev : Option CompRow) (r : CompRow) :
    checkGapOverlap prev r = .ok () ↔ ∀ p, prev = some p → Contiguous p r := by
  cases prev with
  | none => simp [checkGapOverlap]
  | some p =>
    simp only [checkGapOverlap]
    by_cases h3 : p.endMD < r.startMD
    · rw [if_pos h3]
      simp only [reduceCtorEq, false_iff, not_forall]
      refine ⟨p, rfl, fun hcc => ?_⟩
      unfold Contiguous at hcc
      rw [hcc] at h3
      exact lt_irrefl _ h3
    · rw [if_neg h3]
      by_cases h4 : r.startMD < p.endMD
      · rw [if_pos h4]
        simp only [reduceCtorEq, false_iff, not_forall]
        refine ⟨p, rfl, fun hcc => ?_⟩
        unfold Contiguous at hcc
        rw [hcc] at h4
        exact lt_irrefl _ h4
      · rw [if_neg h4]
        simp only [true_iff]
        intro q hq
        cases hq
        unfold Contiguous
        exact le_antisymm (not_lt.mp h3) (not_lt.mp h4)

/-- Acceptance condition of one row check: the row conditions hold and, when
there is a preceding row, the two are contiguous. -/
theorem checkForErrors_ok_iff (prev : Option CompRow) (r : CompRow) :
    checkForErrors prev r = .ok () ↔
      RowOk r ∧ ∀ p, prev = some p → Contiguous p r := by
  have hdom : checkDomains r = .ok () ↔
      r.deviceType ∈ validDeviceTypes ∧ r.annulus ∈ validAnnulus := by
    unfold checkDomains
    split_ifs with h1 h2 <;> simp_all
  unfold checkForErrors
  by_cases h1 : r.annulus = "PA" ∧ r.startMD ≠ r.endMD
  · rw [if_pos h1]
    simp only [reduceCtorEq, false_iff]
    rintro ⟨⟨hr, _, _⟩, _⟩
    exact h1.2 (hr h1.1)
  · rw [if_neg h1]
    by_cases h2 : r.annulus ≠ "PA" ∧ r.deviceType ≠ "ICV" ∧ r.startMD = r.endMD
    · rw [if_pos h2]
      simp only [reduceCtorEq, false_iff]
      rintro ⟨⟨_, hr, _⟩, _⟩
      exact hr h2.1 h2.2.1 h2.2.2
    · rw [if_neg h2, bindOk_iff, checkGapOverlap_ok_iff, hdom]
      unfold RowOk
      constructor
      · rintro ⟨hgo, hd, ha⟩
        refine ⟨⟨fun hpa => ?_, fun hnpa hicv heq => h2 ⟨hnpa, hicv, heq⟩, hd, ha⟩, hgo⟩
        by_contra hne
        exact h1 ⟨hpa, hne⟩
      · rintro ⟨⟨_, _, hd, ha⟩, hgo⟩
        exact ⟨hgo, hd, ha⟩

/-- Acceptance condition of a whole group with an explicit predecessor. -/
theorem checkGroup_ok_iff_aux (prev : Option CompRow) (rows : List CompRow) :
    checkGroup prev rows = .ok () ↔
      ((∀ r ∈ rows, RowOk r) ∧
        match prev with
        | none => List.Chain' Contiguous rows
        | some p => List.Chain' Contiguous (p :: rows)) := by
  induction rows generalizing prev with
  | nil => cases prev <;> simp [checkGroup]
  | cons r rest ih =>
    have hsplit : checkGroup prev (r :: rest) = .ok () ↔
        (checkForErrors prev r = .ok () ∧ checkGroup (some r) rest = .ok ()) := by
      cases h : checkForErrors prev r with
      | error x => simp [checkGroup, h]
      | ok u => cases u; simp [checkGroup, h]
    rw [hsplit, checkForErrors_ok_iff, ih]
    cases prev with
    | none =>
      simp only [List.forall_mem_cons]
      constructor
      · rintro ⟨⟨hr, _⟩, hall, hchain⟩
        exact ⟨⟨hr, hall⟩, hchain⟩
      · rintro ⟨⟨hr, hall⟩, hchain⟩
        exact ⟨⟨hr, fun p hp => absurd hp (by simp)⟩, hall, hchain⟩
    | some p =>
      simp only [List.forall_mem_cons, List.chain'_cons]
      constructor
      · rintro ⟨⟨hr, hc⟩, hall, hchain⟩
        exact ⟨⟨hr, hall⟩, hc p rfl, hchain⟩
      · rintro ⟨⟨hr, hall⟩, hc, hchain⟩
        exact ⟨⟨hr, fun q hq => by cases hq; exact hc⟩, hall, hchain⟩

/-- C5 counterexample: a group made of a zero-length non-packer ICV interval
followed by a non-packer interval whose depths run backwards is accepted by
`_check_for_errors`, although the claim requires every non-packer interval to
have positive length (and the intervals to be depth-ordered). -/
theorem checkGroup_accepts_claim_violations :
    checkGroup none [icvZeroLengthRow, reversedRow] = .ok () ∧
      ¬ ∀ r ∈ [icvZeroLengthRow, reversedRow],
          r.annulus ≠ "PA" → r.startMD < r.endMD := by
  constructor
  · decide
  · decide

/-- C5 (amended): validation of one (well, branch) group accepts iff
consecutive intervals are contiguous (each row starts at the depth where the
previous row ends), every packer interval has zero length, every non-packer
interval whose device type is not ICV has nonzero length, and every device
type and annulus value lies in its valid domain; gaps and overlaps are
reported with an error naming the offending depth range. -/
theorem checkGroup_ok_characterization (rows : List CompRow) :
    checkGroup none rows = .ok () ↔
      List.Chain' Contiguous rows ∧ ∀ r ∈ rows, RowOk r := by
  rw [checkGroup_ok_iff_aux]
  exact and_comm

/-- C7: determinism of the engine: two runs on identical inputs produce
identical outputs, in particular identical segment ids, annulus zone ids and
cell-to-segment mappings.  The engine state is rebuilt from the inputs on
every run, so the result is a function of the inputs alone (the inputs
include the set-iteration order, which is fixed within one interpreter
session). -/
theorem runEngine_deterministic (inp1 inp2 : EngineInput) (h : inp1 = inp2) :
    runEngine inp1 = runEngine inp2 := by
  rw [h]

/-- Witness for the C7 theorem at a concrete input. -/
theorem runEngine_deterministic_witness :
    runEngine sampleEngineInput = runEngine sampleEngineInput :=
  runEngine_deterministic sampleEngineInput sampleEngineInput rfl

end Completor
